import Mathlib

/-!
Verification of the base48 member-portal payment reconciliation and balance
engine.  The Go source (handlers, cron jobs) and the sqlc queries are embedded
shallowly: SQL tables become lists of records, nullable columns become
`Option`, monetary amounts become `ℚ`, and each handler or cron-loop body
becomes a pure function on a `Db` state.
-/

namespace Base48

/-- A row of the `users` table (the fields the reconciliation core reads). -/
structure User where
  id : Int
  email : String
  paymentsId : Option String
  levelId : Int
  levelActualAmount : ℚ
  state : String
  deriving Repr, DecidableEq

/-- A row of the `levels` table. -/
structure Level where
  id : Int
  name : String
  amount : ℚ
  active : Bool
  deriving Repr, DecidableEq

/-- A row of the `payments` table. -/
structure Payment where
  id : Int
  userId : Option Int
  projectId : Option Int
  date : Int
  amount : ℚ
  kind : String
  kindId : String
  localAccount : String
  remoteAccount : String
  identification : String
  rawData : Option String
  staffComment : Option String
  dismissedAt : Option Int
  dismissedBy : Option Int
  dismissedReason : Option String
  deriving Repr, DecidableEq

/-- A row of the `fees` table. -/
structure Fee where
  id : Int
  userId : Int
  levelId : Int
  periodStart : Int
  amount : ℚ
  deriving Repr, DecidableEq

/-- A row of the `projects` table. -/
structure Project where
  id : Int
  name : String
  paymentsId : Option String
  description : Option String
  deriving Repr, DecidableEq

/-- A row of the `project_vs` table (one VS identifier owned by a project). -/
structure ProjectVs where
  projectId : Int
  vs : String
  note : Option String
  deriving Repr, DecidableEq

/-- The Ledger Store: every table touched by the reconciliation core, plus the
autoincrement counters for the rows the core inserts. -/
structure Db where
  users : List User
  levels : List Level
  payments : List Payment
  nextPaymentId : Int
  fees : List Fee
  nextFeeId : Int
  projects : List Project
  nextProjectId : Int
  projectVs : List ProjectVs
  deriving Repr, DecidableEq

/-! ### Embedded sqlc queries (internal/db/queries.sql, current versions) -/

/-- `GetUserByPaymentsID`: `SELECT * FROM users WHERE payments_id = ? LIMIT 1`.
SQL `NULL = x` is never true, hence the comparison against `some vs`. -/
def getUserByPaymentsID (db : Db) (vs : String) : Option User :=
  db.users.find? (fun u => u.paymentsId == some vs)

/-- `GetUserByID`: `SELECT * FROM users WHERE id = ? LIMIT 1`. -/
def getUserByID (db : Db) (uid : Int) : Option User :=
  db.users.find? (fun u => u.id == uid)

/-- `GetPayment`: `SELECT * FROM payments WHERE id = ? LIMIT 1`. -/
def getPayment (db : Db) (pid : Int) : Option Payment :=
  db.payments.find? (fun p => p.id == pid)

/-- `GetPaymentByKindAndID`: `SELECT * FROM payments WHERE kind = ? AND kind_id = ? LIMIT 1`. -/
def getPaymentByKindAndID (db : Db) (kind kindId : String) : Option Payment :=
  db.payments.find? (fun p => p.kind == kind && p.kindId == kindId)

/-- The parameter record of the `UpsertPayment` query. -/
structure UpsertPaymentParams where
  userId : Option Int
  projectId : Option Int
  date : Int
  amount : ℚ
  kind : String
  kindId : String
  localAccount : String
  remoteAccount : String
  identification : String
  rawData : Option String
  staffComment : Option String
  deriving Repr, DecidableEq

/-- The column updates of `UpsertPayment`'s `ON CONFLICT(kind, kind_id) DO UPDATE`
clause: every inserted column except the conflict key is overwritten from
`excluded`; `id` and the dismissal columns are untouched. -/
def applyUpsert (q : Payment) (a : UpsertPaymentParams) : Payment :=
  { q with
    userId := a.userId
    projectId := a.projectId
    date := a.date
    amount := a.amount
    localAccount := a.localAccount
    remoteAccount := a.remoteAccount
    identification := a.identification
    rawData := a.rawData
    staffComment := a.staffComment }

/-- The freshly inserted row of `UpsertPayment` (no conflict case); dismissal
columns default to `NULL`. -/
def newPayment (a : UpsertPaymentParams) (pid : Int) : Payment :=
  { id := pid
    userId := a.userId
    projectId := a.projectId
    date := a.date
    amount := a.amount
    kind := a.kind
    kindId := a.kindId
    localAccount := a.localAccount
    remoteAccount := a.remoteAccount
    identification := a.identification
    rawData := a.rawData
    staffComment := a.staffComment
    dismissedAt := none
    dismissedBy := none
    dismissedReason := none }

/-- `UpsertPayment`: insert, or on conflict of the unique key `(kind, kind_id)`
update the conflicting row in place. -/
def upsertPayment (db : Db) (a : UpsertPaymentParams) : Db :=
  if db.payments.any (fun q => q.kind == a.kind && q.kindId == a.kindId) then
    { db with
      payments := db.payments.map (fun q =>
        if q.kind == a.kind && q.kindId == a.kindId then applyUpsert q a else q) }
  else
    { db with
      payments := db.payments ++ [newPayment a db.nextPaymentId]
      nextPaymentId := db.nextPaymentId + 1 }

/-- `ListUnassignedPayments`:
`SELECT * FROM payments WHERE user_id IS NULL AND dismissed_at IS NULL`. -/
def listUnassignedPayments (db : Db) : List Payment :=
  db.payments.filter (fun p => p.userId == none && p.dismissedAt == none)

/-- `GetUserBalance`: the current query sums the amounts of the rows of
`payments p JOIN users u ON p.user_id = u.id
 WHERE p.user_id = ? AND p.identification = u.payments_id`
and subtracts the sum of the user's fees.  The inner `map`/`sum` realises the
join rows (one per matching `users` row, as in SQL). -/
def getUserBalance (db : Db) (uid : Int) : ℚ :=
  ((db.payments.filter (fun p => p.userId == some uid)).map (fun p =>
    ((db.users.filter (fun u => u.id == uid && u.paymentsId == some p.identification)).map
      (fun _ => p.amount)).sum)).sum
  - ((db.fees.filter (fun f => f.userId == uid)).map (fun f => f.amount)).sum

/-- `GetFeeByUserAndPeriod`:
`SELECT * FROM fees WHERE user_id = ? AND period_start = ? LIMIT 1`. -/
def getFeeByUserAndPeriod (db : Db) (uid : Int) (period : Int) : Option Fee :=
  db.fees.find? (fun f => f.userId == uid && f.periodStart == period)

/-- Parameters of `CreateFee`. -/
structure CreateFeeParams where
  userId : Int
  levelId : Int
  periodStart : Int
  amount : ℚ
  deriving Repr, DecidableEq

/-- `CreateFee`: `INSERT INTO fees (user_id, level_id, period_start, amount)`. -/
def createFee (db : Db) (a : CreateFeeParams) : Db :=
  { db with
    fees := db.fees ++
      [{ id := db.nextFeeId, userId := a.userId, levelId := a.levelId,
         periodStart := a.periodStart, amount := a.amount }]
    nextFeeId := db.nextFeeId + 1 }

/-- `GetProject`: `SELECT * FROM projects WHERE id = ? LIMIT 1`. -/
def getProject (db : Db) (pid : Int) : Option Project :=
  db.projects.find? (fun p => p.id == pid)

/-- `GetProjectByPaymentsID`:
`SELECT p.* FROM projects p JOIN project_vs pv ON p.id = pv.project_id
 WHERE pv.vs = ? LIMIT 1`. -/
def getProjectByPaymentsID (db : Db) (vs : String) : Option Project :=
  db.projectVs.findSome? (fun r =>
    if r.vs == vs then db.projects.find? (fun p => p.id == r.projectId) else none)

/-- `GetProjectVSByVS`: `SELECT * FROM project_vs WHERE vs = ? LIMIT 1`. -/
def getProjectVSByVS (db : Db) (vs : String) : Option ProjectVs :=
  db.projectVs.find? (fun r => r.vs == vs)

/-- `ListProjectVS`: `SELECT * FROM project_vs WHERE project_id = ?`. -/
def listProjectVS (db : Db) (pid : Int) : List ProjectVs :=
  db.projectVs.filter (fun r => r.projectId == pid)

/-- `AddProjectVS`: `INSERT INTO project_vs (project_id, vs, note)`.  The table
has `UNIQUE(project_id, vs)`, so the insert fails (`none`) exactly when that
pair is already present. -/
def addProjectVS (db : Db) (pid : Int) (vs : String) (note : Option String) : Option Db :=
  if db.projectVs.any (fun r => r.projectId == pid && r.vs == vs) then none
  else some { db with projectVs := db.projectVs ++ [{ projectId := pid, vs := vs, note := note }] }

/-- `RemoveProjectVS`: `DELETE FROM project_vs WHERE project_id = ? AND vs = ?`. -/
def removeProjectVS (db : Db) (pid : Int) (vs : String) : Db :=
  { db with projectVs := db.projectVs.filter (fun r => !(r.projectId == pid && r.vs == vs)) }

/-- `CreateProject`: `INSERT INTO projects (name, payments_id, description)`;
the handler passes `payments_id` as `NULL` when the request string is empty. -/
def createProject (db : Db) (name paymentsId description : String) : Db × Project :=
  let proj : Project :=
    { id := db.nextProjectId
      name := name
      paymentsId := if paymentsId == "" then none else some paymentsId
      description := if description == "" then none else some description }
  ({ db with projects := db.projects ++ [proj], nextProjectId := db.nextProjectId + 1 }, proj)

/-! ### Bank sync (cmd/cron/sync_fio_payments.go, main loop) -/

/-- A normalized FIO bank transaction (the fields the sync loop reads); `raw`
stands for the marshalled JSON stored into `raw_data`. -/
structure FioTx where
  id : Int
  date : Int
  amount : ℚ
  accountNumber : String
  bankCode : String
  accountName : String
  variableSymbol : String
  raw : String
  deriving Repr, DecidableEq

/-- `fmt.Sprintf("%d", tx.ID)`: the dedup key within kind `"fio"`. -/
def txKindId (tx : FioTx) : String := toString tx.id

/-- Remote account string: `account` or `account/bankCode`. -/
def txRemoteAccount (tx : FioTx) : String :=
  if tx.bankCode == "" then tx.accountNumber else tx.accountNumber ++ "/" ++ tx.bankCode

/-- The member id the sync computes for a transaction: looked up by
`payments_id = VS` only when the VS is non-empty. -/
def computedUserId (db : Db) (tx : FioTx) : Option Int :=
  if tx.variableSymbol == "" then none
  else (getUserByPaymentsID db tx.variableSymbol).map (fun u => u.id)

/-- What happened to one transaction during the sync loop (the loop's
counters; a no-change existing payment increments the same `skipped` counter
as a non-positive amount). -/
inductive SyncOutcome
  | skipped
  | inserted
  | updated
  deriving Repr, DecidableEq

/-- The `UpsertPayment` parameters the sync builds for a transaction. -/
def syncUpsertParams (db : Db) (tx : FioTx) (staffComment : Option String) :
    UpsertPaymentParams :=
  { userId := computedUserId db tx
    projectId := none
    date := tx.date
    amount := tx.amount
    kind := "fio"
    kindId := txKindId tx
    localAccount := "FIO"
    remoteAccount := txRemoteAccount tx
    identification := tx.variableSymbol
    rawData := some tx.raw
    staffComment := staffComment }

/-- The sync's update condition for an existing payment:
`userID.Valid && (!existing.UserID.Valid || existing.UserID.Int64 != userID.Int64)`. -/
def syncNeedsUpdate (existing : Payment) (computed : Option Int) : Bool :=
  match computed with
  | some uid => existing.userId != some uid
  | none => false

/-- One iteration of the sync loop: skip non-positive amounts; otherwise look
the payment up by `(kind, kind_id)`; insert when absent; when present update
only when the computed member link differs from the stored one, preserving the
stored staff comment. -/
def syncStep (db : Db) (tx : FioTx) : Db × SyncOutcome :=
  if tx.amount ≤ 0 then (db, .skipped)
  else
    match getPaymentByKindAndID db "fio" (txKindId tx) with
    | none => (upsertPayment db (syncUpsertParams db tx none), .inserted)
    | some existing =>
      if syncNeedsUpdate existing (computedUserId db tx) then
        (upsertPayment db (syncUpsertParams db tx existing.staffComment), .updated)
      else (db, .skipped)

/-- The whole sync run over a fetched batch, in feed order. -/
def syncRun (db : Db) (txs : List FioTx) : Db :=
  txs.foldl (fun d tx => (syncStep d tx).1) db

/-- A transaction is settled in a store when re-processing it is a no-op:
either it is filtered out by amount, or its payment row exists and already
carries the member link the sync would compute. -/
def syncSettled (db : Db) (tx : FioTx) : Prop :=
  tx.amount ≤ 0 ∨
    ∃ p, getPaymentByKindAndID db "fio" (txKindId tx) = some p ∧
      (computedUserId db tx = none ∨ p.userId = computedUserId db tx)

/-! ### Unmatched-payment triage (AdminUnmatchedPaymentsHandler) -/

/-- The triage categories of the unmatched-payments view. -/
inductive TriageCat
  | emptyVs
  | userNotFound
  | syncBug
  deriving Repr, DecidableEq

/-- The per-payment body of the triage loop: `none` means the payment is left
out of the view (small amount, or its VS belongs to a project). -/
def triageCategory (db : Db) (p : Payment) : Option TriageCat :=
  if p.amount < 5 then none
  else if p.identification == "" then some .emptyVs
  else if (getProjectByPaymentsID db p.identification).isSome then none
  else if (getUserByPaymentsID db p.identification).isNone then some .userNotFound
  else some .syncBug

/-- The unmatched list the handler renders: every unassigned, undismissed
payment together with its category, when it gets one. -/
def unmatchedTriageList (db : Db) : List (Payment × TriageCat) :=
  (listUnassignedPayments db).filterMap
    (fun p => (triageCategory db p).map (fun c => (p, c)))

/-! ### Monthly fee job (cmd/cron/create_monthly_fees.go) -/

/-- A row of `ListAcceptedUsersForFees`: an accepted user joined with the
nominal amount of their level. -/
structure FeeUserRow where
  user : User
  levelAmount : ℚ
  deriving Repr, DecidableEq

/-- `ListAcceptedUsersForFees`: accepted users joined with their level. -/
def listAcceptedUsersForFees (db : Db) : List FeeUserRow :=
  (db.users.filter (fun u => u.state == "accepted")).filterMap (fun u =>
    (db.levels.find? (fun l => l.id == u.levelId)).map
      (fun l => { user := u, levelAmount := l.amount }))

/-- The fee amount the job posts: `level_actual_amount`, falling back to the
level's nominal amount when it is unset (stored as `"0"`/empty). -/
def feeAmountFor (row : FeeUserRow) : ℚ :=
  if row.user.levelActualAmount == 0 then row.levelAmount else row.user.levelActualAmount

/-- One iteration of the fee job: skip when a fee for the (member, period)
already exists (with a positive id); otherwise create the fee, recompute the
balance, and decide the debt warning (`balance < -(2 * monthlyFee)`).  The
returned flag is whether the debt-warning notification is triggered. -/
def monthlyFeeStep (db : Db) (period : Int) (row : FeeUserRow) : Db × Bool :=
  let skip := match getFeeByUserAndPeriod db row.user.id period with
    | some f => decide (0 < f.id)
    | none => false
  if skip then (db, false)
  else
    let feeAmount := feeAmountFor row
    let db1 := createFee db
      { userId := row.user.id, levelId := row.user.levelId,
        periodStart := period, amount := feeAmount }
    (db1, decide (getUserBalance db1 row.user.id < -(2 * feeAmount)))

/-- The whole monthly fee run over the accepted-member rows. -/
def monthlyFeeRun (db : Db) (period : Int) (rows : List FeeUserRow) : Db :=
  rows.foldl (fun d row => (monthlyFeeStep d period row).1) db

/-- Well-formedness of the fee store: the autoincrement counter and all
existing fee ids are positive (as SQLite AUTOINCREMENT guarantees). -/
def feesWf (db : Db) : Bool :=
  decide (0 < db.nextFeeId) && db.fees.all (fun f => decide (0 < f.id))

/-- At most one fee row per (member, period). -/
def atMostOneFee (db : Db) : Prop :=
  db.fees.Pairwise (fun f g => ¬(f.userId = g.userId ∧ f.periodStart = g.periodStart))

/-! ### Admin payment mutations (internal/handler/admin_payments.go) -/

/-- `AdminAssignPaymentHandler`: verify payment and target user, then upsert
the payment with the member link set, the project link cleared, and the
identification rewritten to the member's `payments_id`.  `none` models the
handler's "not found" error responses. -/
def adminAssignPayment (db : Db) (paymentId userId : Int) (staffComment : String) :
    Option Db :=
  (getPayment db paymentId).bind (fun payment =>
    (getUserByID db userId).map (fun targetUser =>
      upsertPayment db
        { userId := some userId
          projectId := none
          date := payment.date
          amount := payment.amount
          kind := payment.kind
          kindId := payment.kindId
          localAccount := payment.localAccount
          remoteAccount := payment.remoteAccount
          identification := targetUser.paymentsId.getD ""
          rawData := payment.rawData
          staffComment := if staffComment == "" then none else some staffComment }))

/-- The request body of `AdminUpdatePaymentHandler` (the `message`/`comment`
fields only feed the audit log and are omitted). -/
structure UpdatePaymentRequest where
  paymentId : Int
  vs : String
  staffComment : String
  assignType : String
  userId : Option Int
  projectId : Option Int
  deriving Repr, DecidableEq

/-- `AdminUpdatePaymentHandler`: re-target a payment.  `"user"` links a member
and rewrites identification to the member's `payments_id`; `"project"` links a
project and rewrites identification to the project's primary `payments_id`
only when that is set, otherwise the request's VS is kept; any other assign
type clears both links and stores the request's VS. -/
def updateUpsertParams (payment : Payment) (req : UpdatePaymentRequest)
    (userId projectId : Option Int) (identification : String) : UpsertPaymentParams :=
  { userId := userId
    projectId := projectId
    date := payment.date
    amount := payment.amount
    kind := payment.kind
    kindId := payment.kindId
    localAccount := payment.localAccount
    remoteAccount := payment.remoteAccount
    identification := identification
    rawData := payment.rawData
    staffComment := if req.staffComment == "" then none else some req.staffComment }

def adminUpdatePayment (db : Db) (req : UpdatePaymentRequest) : Option Db :=
  (getPayment db req.paymentId).bind (fun payment =>
    if req.assignType == "user" then
      req.userId.bind (fun uid =>
        (getUserByID db uid).map (fun tu =>
          upsertPayment db
            (updateUpsertParams payment req (some uid) none (tu.paymentsId.getD ""))))
    else if req.assignType == "project" then
      req.projectId.bind (fun pid =>
        (getProject db pid).map (fun tp =>
          upsertPayment db
            (updateUpsertParams payment req none (some pid)
              (match tp.paymentsId with
               | some s => s
               | none => req.vs))))
    else
      some (upsertPayment db (updateUpsertParams payment req none none req.vs)))

/-- The staff comment `AdminDismissPaymentHandler` writes. -/
def dismissCommentFor (reason : String) : Option String :=
  if reason != "" then some ("[DISMISSED] " ++ reason) else some "[DISMISSED]"

/-- `DismissPayment` query: set the three dismissal columns and overwrite the
staff comment on the row with the given id. -/
def dismissPaymentQuery (db : Db) (dismissedBy : Int) (reason : String)
    (staffComment : Option String) (pid : Int) (now : Int) : Db :=
  { db with payments := db.payments.map (fun p =>
      if p.id == pid then
        { p with dismissedAt := some now, dismissedBy := some dismissedBy,
                 dismissedReason := some reason, staffComment := staffComment }
      else p) }

/-- `AdminDismissPaymentHandler`: verify the payment exists, then dismiss it
with the `[DISMISSED]`-prefixed staff comment. -/
def adminDismissPayment (db : Db) (adminId pid : Int) (reason : String) (now : Int) :
    Option Db :=
  (getPayment db pid).map (fun _ =>
    dismissPaymentQuery db adminId reason (dismissCommentFor reason) pid now)

/-- `UndismissPayment` query: clear exactly the three dismissal columns. -/
def undismissPaymentQuery (db : Db) (pid : Int) : Db :=
  { db with payments := db.payments.map (fun p =>
      if p.id == pid then
        { p with dismissedAt := none, dismissedBy := none, dismissedReason := none }
      else p) }

/-- `AdminUndismissPaymentHandler`: verify the payment exists, then clear the
dismissal columns. -/
def adminUndismissPayment (db : Db) (pid : Int) : Option Db :=
  (getPayment db pid).map (fun _ => undismissPaymentQuery db pid)

/-! ### Project VS administration -/

/-- Outcome of `AdminAddProjectVSHandler`. -/
inductive AddVsOutcome
  | badRequest
  | conflict
  | insertError
  | ok
  deriving Repr, DecidableEq

/-- The insert attempt of `AdminAddProjectVSHandler`: `AddProjectVS` may be
refused by the `UNIQUE(project_id, vs)` constraint, answered as a 500 with no
state change. -/
def addVsAttempt (db : Db) (pid : Int) (vs note : String) : Db × AddVsOutcome :=
  match addProjectVS db pid vs (if note == "" then none else some note) with
  | some db1 => (db1, .ok)
  | none => (db, .insertError)

/-- `AdminAddProjectVSHandler`: reject an empty VS; answer 409 when the first
`project_vs` row holding this VS belongs to a different project; otherwise
attempt the insert. -/
def adminAddProjectVS (db : Db) (pid : Int) (vs note : String) : Db × AddVsOutcome :=
  if vs == "" then (db, .badRequest)
  else
    match getProjectVSByVS db vs with
    | some existing =>
      if existing.projectId != pid then (db, .conflict)
      else addVsAttempt db pid vs note
    | none => addVsAttempt db pid vs note

/-- `AdminCreateProjectHandler`: reject an empty name; create the project; when
an initial VS is given, also insert it into `project_vs` (note `"primary"`),
ignoring an insert failure. -/
def adminCreateProject (db : Db) (name paymentsId description : String) : Option Db :=
  if name == "" then none
  else
    let created := createProject db name paymentsId description
    if paymentsId != "" then
      some ((addProjectVS created.1 created.2.id paymentsId (some "primary")).getD created.1)
    else some created.1

/-- `AdminRemoveProjectVSHandler`: refuse (`none`) when the project holds at
most one VS; otherwise delete the `(project, vs)` row. -/
def adminRemoveProjectVS (db : Db) (pid : Int) (vs : String) : Option Db :=
  if (listProjectVS db pid).length ≤ 1 then none
  else some (removeProjectVS db pid vs)

/-! ### Claim-level predicates -/

/-- The identifier strings a project holds: its `project_vs` rows plus its
legacy primary `payments_id`. -/
def projectIdents (db : Db) (pid : Int) : List String :=
  ((db.projectVs.filter (fun r => r.projectId == pid)).map (fun r => r.vs)) ++
    ((db.projects.find? (fun p => p.id == pid)).bind (fun p => p.paymentsId)).toList

/-- The C3 lock-step invariant for one payment: a member link forces
identification to equal that member's `payments_id` string, and a project link
forces identification to be one of that project's identifiers. -/
def linkIdentOkB (db : Db) (p : Payment) : Bool :=
  (match p.userId with
   | none => true
   | some uid => db.users.all (fun u => u.id != uid || p.identification == u.paymentsId.getD ""))
  && (match p.projectId with
      | none => true
      | some pid => (projectIdents db pid).contains p.identification)

/-- The C3 invariant over the whole payment store. -/
def paymentsLinkIdentOk (db : Db) : Bool :=
  db.payments.all (linkIdentOkB db)

/-- The C7 invariant: one VS string never belongs to two distinct projects. -/
def vsUniqueB (db : Db) : Bool :=
  db.projectVs.all (fun r => db.projectVs.all
    (fun r2 => r.vs != r2.vs || r.projectId == r2.projectId))

/-! ### Spec-side comparison definition for C1 -/

/-- The balance formula exactly as the spec words it (for comparison with
`getUserBalance`, which is embedded from the SQL): sum of the amounts of *all*
payments whose identification equals the member's payment identifier, minus the
member's fees — identification equality as the sole join condition. -/
def specBalanceC1 (db : Db) (m : User) : ℚ :=
  ((db.payments.filter (fun p => some p.identification == m.paymentsId)).map
    (fun p => p.amount)).sum
  - ((db.fees.filter (fun f => f.userId == m.id)).map (fun f => f.amount)).sum

/-- Member 1 with identifier "42" and a single identification-matching but
unlinked payment of 100. -/
def c1User : User :=
  { id := 1, email := "m@example.com", paymentsId := some "42", levelId := 1,
    levelActualAmount := 600, state := "accepted" }

def c1Payment : Payment :=
  { id := 10, userId := none, projectId := none, date := 0, amount := 100,
    kind := "fio", kindId := "7001", localAccount := "FIO", remoteAccount := "123/0100",
    identification := "42", rawData := none, staffComment := none,
    dismissedAt := none, dismissedBy := none, dismissedReason := none }

def c1Db : Db :=
  { users := [c1User], levels := [], payments := [c1Payment], nextPaymentId := 11,
    fees := [], nextFeeId := 1, projects := [], nextProjectId := 1, projectVs := [] }

/-- Member 1 again, now with one linked, identification-matching payment of
1000 and one fee of 600. -/
def c1WDb : Db :=
  { users := [c1User], levels := [],
    payments := [{ c1Payment with userId := some 1, amount := 1000 }], nextPaymentId := 11,
    fees := [{ id := 1, userId := 1, levelId := 1, periodStart := 0, amount := 600 }],
    nextFeeId := 2, projects := [], nextProjectId := 1, projectVs := [] }

/-! ### Concrete states for witnesses and counterexamples -/

/-- A payment with a staff note, for the dismissal round-trip (C10). -/
def c10Payment : Payment :=
  { id := 5, userId := none, projectId := none, date := 0, amount := 250,
    kind := "fio", kindId := "9001", localAccount := "FIO", remoteAccount := "77/0300",
    identification := "555", rawData := none, staffComment := some "original note",
    dismissedAt := none, dismissedBy := none, dismissedReason := none }

def c10Db : Db :=
  { users := [], levels := [], payments := [c10Payment], nextPaymentId := 6,
    fees := [], nextFeeId := 1, projects := [], nextProjectId := 1, projectVs := [] }

/-- Project 1 with two identifiers and project 2 with one (C8). -/
def c8Db : Db :=
  { users := [], levels := [], payments := [], nextPaymentId := 1,
    fees := [], nextFeeId := 1,
    projects := [{ id := 1, name := "A", paymentsId := some "100", description := none },
                 { id := 2, name := "B", paymentsId := some "200", description := none }],
    nextProjectId := 3,
    projectVs := [{ projectId := 1, vs := "100", note := some "primary" },
                  { projectId := 1, vs := "101", note := some "typo" },
                  { projectId := 2, vs := "200", note := some "primary" }] }

/-- An incoming transaction of 3 Kč with an empty VS (C5): positive, so the
sync persists it, yet below the triage view's 5-Kč cut. -/
def c5Tx : FioTx :=
  { id := 31, date := 10, amount := 3, accountNumber := "11", bankCode := "0100",
    accountName := "noise", variableSymbol := "", raw := "rawjson" }

def c5Db : Db :=
  { users := [], levels := [], payments := [], nextPaymentId := 1,
    fees := [], nextFeeId := 1, projects := [], nextProjectId := 1, projectVs := [] }

/-- Accepted member for the debt-warning scenario (C6): monthly fee 600. -/
def c6User : User :=
  { id := 1, email := "m@example.com", paymentsId := some "77", levelId := 1,
    levelActualAmount := 600, state := "accepted" }

def c6Row : FeeUserRow := { user := c6User, levelAmount := 600 }

/-- Before the run, member 1 already owes 700 from an older period: after the
new 600 fee the balance is −1300 (fires the warning, −1300 < −1200). -/
def c6DbA : Db :=
  { users := [c6User], levels := [{ id := 1, name := "Regular", amount := 600, active := true }],
    payments := [], nextPaymentId := 1,
    fees := [{ id := 1, userId := 1, levelId := 1, periodStart := 0, amount := 700 }],
    nextFeeId := 2, projects := [], nextProjectId := 1, projectVs := [] }

/-- Same member owing only 500: after the new 600 fee the balance is −1100
(warning not fired, −1100 ≥ −1200). -/
def c6DbB : Db :=
  { c6DbA with fees := [{ id := 1, userId := 1, levelId := 1, periodStart := 0, amount := 500 }] }

/-- State for the triage witness (C4): a 250-Kč payment with VS "9999"
matching no user and no project. -/
def c4Payment : Payment :=
  { id := 3, userId := none, projectId := none, date := 0, amount := 250,
    kind := "fio", kindId := "8001", localAccount := "FIO", remoteAccount := "5/0800",
    identification := "9999", rawData := none, staffComment := none,
    dismissedAt := none, dismissedBy := none, dismissedReason := none }

def c4Db : Db :=
  { users := [c6User], levels := [], payments := [c4Payment], nextPaymentId := 4,
    fees := [], nextFeeId := 1,
    projects := [{ id := 1, name := "A", paymentsId := some "100", description := none }],
    nextProjectId := 2,
    projectVs := [{ projectId := 1, vs := "100", note := none }] }

/-- Batch for the sync-idempotence witness (C2): one matched and one empty-VS
transaction with distinct FIO ids. -/
def c2TxA : FioTx :=
  { id := 100, date := 5, amount := 500, accountNumber := "22", bankCode := "0300",
    accountName := "member", variableSymbol := "42", raw := "rawA" }

def c2TxB : FioTx :=
  { id := 101, date := 6, amount := 200, accountNumber := "23", bankCode := "",
    accountName := "anon", variableSymbol := "", raw := "rawB" }

def c2Db : Db :=
  { users := [c1User], levels := [], payments := [], nextPaymentId := 1,
    fees := [], nextFeeId := 1, projects := [], nextProjectId := 1, projectVs := [] }

/-- A project with no primary `payments_id` and identifier set {"111"}, plus
an unlinked payment (C3). -/
def c3Payment : Payment :=
  { id := 1, userId := none, projectId := none, date := 0, amount := 300,
    kind := "fio", kindId := "41", localAccount := "FIO", remoteAccount := "9/0100",
    identification := "555", rawData := none, staffComment := none,
    dismissedAt := none, dismissedBy := none, dismissedReason := none }

def c3Db : Db :=
  { users := [], levels := [], payments := [c3Payment], nextPaymentId := 2,
    fees := [], nextFeeId := 1,
    projects := [{ id := 7, name := "P", paymentsId := none, description := none }],
    nextProjectId := 8,
    projectVs := [{ projectId := 7, vs := "111", note := none }] }

/-- Manual update assigning payment 1 to project 7 while supplying VS "999",
which is none of project 7's identifiers. -/
def c3Req : UpdatePaymentRequest :=
  { paymentId := 1, vs := "999", staffComment := "", assignType := "project",
    userId := none, projectId := some 7 }

/-- State for the amended-C3 witness: member 2 with identifier "88" and the
same unlinked payment. -/
def c3WDb : Db :=
  { users := [{ id := 2, email := "x@example.com", paymentsId := some "88",
                levelId := 1, levelActualAmount := 600, state := "accepted" }],
    levels := [], payments := [c3Payment], nextPaymentId := 2,
    fees := [], nextFeeId := 1, projects := [], nextProjectId := 1, projectVs := [] }

/-! ### Theorems -/

/-- A `find?` over a list mapped by a predicate-preserving function is the
mapped `find?`. -/
theorem find?_map_preserving {α : Type} (l : List α) (f : α → α) (q : α → Bool)
    (hf : ∀ a, q (f a) = q a) : (l.map f).find? q = (l.find? q).map f := by
  induction l with
  | nil => simp
  | cons a as ih =>
    cases h : q a with
    | true => simp [List.find?, hf, h]
    | false => simp [List.find?, hf, h, ih]

/-- Summing `if r x then f x else 0` over a list is summing `f` over the
`r`-filtered list. -/
theorem sum_map_ite_eq_sum_filter {α : Type} (r : α → Bool) (f : α → ℚ) (l : List α) :
    (l.map (fun x => if r x then f x else 0)).sum = ((l.filter r).map f).sum := by
  induction l with
  | nil => simp
  | cons x xs ih => cases h : r x <;> simp [List.filter_cons, h, ih]

/-- C1 counterexample: the code's balance additionally requires the payment's
`user_id` link; a payment whose identification matches member 1's identifier
but that carries no member link contributes nothing, while the spec's formula
counts it.  So identification equality is not the sole join condition. -/
theorem getUserBalance_ne_specBalanceC1 :
    getUserBalance c1Db 1 = 0 ∧ specBalanceC1 c1Db c1User = 100 ∧
      getUserBalance c1Db 1 ≠ specBalanceC1 c1Db c1User := by
  refine ⟨?_, ?_, ?_⟩ <;>
    norm_num [getUserBalance, specBalanceC1, c1Db, c1User, c1Payment, List.filter]

/-- C1 (amended): for a member `u` that is the unique `users` row with id
`uid` and whose payment identifier is `v`, the code's balance is the sum of
the amounts of the payments that are **linked to `u`** (`user_id = uid`) *and*
carry identification `v`, minus the sum of `u`'s fees. -/
theorem getUserBalance_linked_and_matching (db : Db) (uid : Int) (u : User) (v : String)
    (hu : db.users.filter (fun x => x.id == uid) = [u]) (hv : u.paymentsId = some v) :
    getUserBalance db uid =
      ((db.payments.filter (fun p => p.userId == some uid && p.identification == v)).map
        (fun p => p.amount)).sum
      - ((db.fees.filter (fun f => f.userId == uid)).map (fun f => f.amount)).sum := by
  unfold getUserBalance
  congr 1
  have key : ∀ s : String,
      db.users.filter (fun x => x.id == uid && x.paymentsId == some s) =
        if u.paymentsId == some s then [u] else [] := by
    intro s
    have hsplit : db.users.filter (fun x => x.id == uid && x.paymentsId == some s) =
        (db.users.filter (fun x => x.id == uid)).filter
          (fun x => x.paymentsId == some s) := by
      rw [List.filter_filter]
      congr 1
      funext x
      rw [Bool.and_comm]
    rw [hsplit, hu]
    cases h : u.paymentsId == some s <;> simp [List.filter, h]
  have inner : ∀ p : Payment,
      ((db.users.filter (fun x => x.id == uid && x.paymentsId == some p.identification)).map
        (fun _ => p.amount)).sum = if p.identification == v then p.amount else (0 : ℚ) := by
    intro p
    rw [key p.identification]
    cases hid : (p.identification == v) with
    | false =>
      have hne : p.identification ≠ v := ne_of_beq_false hid
      have hmatch : (u.paymentsId == some p.identification) = false := by
        rw [hv]
        exact beq_eq_false_iff_ne.2 (fun h => hne (Option.some.inj h).symm)
      simp [hmatch, hid]
    | true =>
      have hmatch : (u.paymentsId == some p.identification) = true := by
        rw [hv, eq_of_beq hid]
        simp
      simp [hmatch, hid]
  simp only [inner]
  simp only [sum_map_ite_eq_sum_filter, List.filter_filter]
  have hcomm : (fun a : Payment => a.identification == v && a.userId == some uid) =
      (fun p : Payment => p.userId == some uid && p.identification == v) :=
    funext (fun p => Bool.and_comm _ _)
  rw [hcomm]

/-- C1 amended-claim witness: concrete member with one linked matching payment
of 1000 and one fee of 600; balance is 400. -/
theorem getUserBalance_linked_and_matching_witness :
    (c1WDb.users.filter (fun x => x.id == 1) = [c1User] ∧ c1User.paymentsId = some "42") ∧
      getUserBalance c1WDb 1 =
        ((c1WDb.payments.filter (fun p => p.userId == some 1 && p.identification == "42")).map
          (fun p => p.amount)).sum
        - ((c1WDb.fees.filter (fun f => f.userId == 1)).map (fun f => f.amount)).sum :=
  ⟨⟨by simp [c1WDb, c1User, List.filter], by simp [c1User]⟩,
    getUserBalance_linked_and_matching c1WDb 1 c1User "42"
      (by simp [c1WDb, c1User, List.filter]) (by simp [c1User])⟩

/-- C10: dismissing overwrites the staff comment with the `[DISMISSED]`-tagged
reason while setting the three dismissal fields, and undismissing clears
exactly those three fields, leaving the overwritten staff comment (and every
other column, and every other row) untouched — so the round trip does not
restore the original staff comment. -/
theorem dismiss_then_undismiss (db : Db) (adminId pid : Int) (reason : String) (now : Int)
    (h : (getPayment db pid).isSome) :
    ∃ db1 db2,
      adminDismissPayment db adminId pid reason now = some db1 ∧
      db1 = { db with payments := db.payments.map (fun p =>
        if p.id == pid then
          { p with dismissedAt := some now, dismissedBy := some adminId,
                   dismissedReason := some reason,
                   staffComment := some (if reason = "" then "[DISMISSED]"
                                         else "[DISMISSED] " ++ reason) }
        else p) } ∧
      adminUndismissPayment db1 pid = some db2 ∧
      db2 = { db with payments := db.payments.map (fun p =>
        if p.id == pid then
          { p with dismissedAt := none, dismissedBy := none, dismissedReason := none,
                   staffComment := some (if reason = "" then "[DISMISSED]"
                                         else "[DISMISSED] " ++ reason) }
        else p) } := by
  have hcomment : dismissCommentFor reason =
      some (if reason = "" then "[DISMISSED]" else "[DISMISSED] " ++ reason) := by
    unfold dismissCommentFor
    cases hr : reason == "" with
    | true => simp [eq_of_beq hr]
    | false => simp [hr, ne_of_beq_false hr]
  obtain ⟨p0, hp0⟩ := Option.isSome_iff_exists.mp h
  refine ⟨dismissPaymentQuery db adminId reason (dismissCommentFor reason) pid now,
    undismissPaymentQuery
      (dismissPaymentQuery db adminId reason (dismissCommentFor reason) pid now) pid,
    ?_, ?_, ?_, ?_⟩
  · unfold adminDismissPayment
    rw [hp0]
    rfl
  · unfold dismissPaymentQuery
    rw [hcomment]
  · unfold adminUndismissPayment getPayment
    unfold dismissPaymentQuery
    rw [find?_map_preserving _ _ _ (fun p => by cases hq : p.id == pid <;> simp [hq])]
    unfold getPayment at hp0
    rw [hp0]
    rfl
  · unfold undismissPaymentQuery dismissPaymentQuery
    rw [hcomment]
    simp only [List.map_map]
    congr 1
    apply List.map_congr_left
    intro p _
    cases hq : p.id == pid with
    | true => simp [Function.comp, hq]
    | false => simp [Function.comp, hq]

/-- C10 witness: the round trip on a concrete payment carrying an original
staff note. -/
theorem dismiss_then_undismiss_witness :
    (getPayment c10Db 5).isSome = true ∧
      ∃ db1 db2,
        adminDismissPayment c10Db 21 5 "duplicate" 1000 = some db1 ∧
        db1 = { c10Db with payments := c10Db.payments.map (fun p =>
          if p.id == 5 then
            { p with dismissedAt := some 1000, dismissedBy := some 21,
                     dismissedReason := some "duplicate",
                     staffComment := some (if "duplicate" = "" then "[DISMISSED]"
                                           else "[DISMISSED] " ++ "duplicate") }
          else p) } ∧
        adminUndismissPayment db1 5 = some db2 ∧
        db2 = { c10Db with payments := c10Db.payments.map (fun p =>
          if p.id == 5 then
            { p with dismissedAt := none, dismissedBy := none, dismissedReason := none,
                     staffComment := some (if "duplicate" = "" then "[DISMISSED]"
                                           else "[DISMISSED] " ++ "duplicate") }
          else p) } :=
  ⟨by simp [getPayment, c10Db, c10Payment, List.find?],
    dismiss_then_undismiss c10Db 21 5 "duplicate" 1000
      (by simp [getPayment, c10Db, c10Payment, List.find?])⟩

/-- C8: removing a VS from a project holding at most one identifier is refused
with no state change; with at least two identifiers the deletion goes through
and removes exactly the `(project, vs)` rows. -/
theorem removeProjectVS_guard (db : Db) (pid : Int) (vs : String) :
    ((listProjectVS db pid).length ≤ 1 → adminRemoveProjectVS db pid vs = none) ∧
    (2 ≤ (listProjectVS db pid).length →
      adminRemoveProjectVS db pid vs =
        some { db with projectVs := (db.projectVs.filter
          (fun r => !(r.projectId == pid && r.vs == vs))) }) := by
  constructor
  · intro hle
    unfold adminRemoveProjectVS
    simp [hle]
  · intro hge
    unfold adminRemoveProjectVS removeProjectVS
    have : ¬((listProjectVS db pid).length ≤ 1) := by omega
    simp [this]

/-- C8 witness: project 1 holds two identifiers, so removing one succeeds;
the guard theorem applied at that state. -/
theorem removeProjectVS_guard_witness :
    2 ≤ (listProjectVS c8Db 1).length ∧
      adminRemoveProjectVS c8Db 1 "101" =
        some { c8Db with projectVs := (c8Db.projectVs.filter
          (fun r => !(r.projectId == 1 && r.vs == "101"))) } :=
  ⟨by simp [listProjectVS, c8Db, List.filter],
    (removeProjectVS_guard c8Db 1 "101").2 (by simp [listProjectVS, c8Db, List.filter])⟩

/-- C5 counterexample: the 3-Kč transaction is below the 5-Kč
negligible-amount threshold the triage view uses, yet the sync inserts it (its
own filter only skips amounts ≤ 0), and the persisted payment is then
invisible to triage.  So "below the threshold ⇒ skipped, never persisted" is
false for the threshold the triage uses, i.e. the two filters do not use the
same threshold. -/
theorem sync_persists_below_triage_threshold :
    c5Tx.amount < 5 ∧
      syncStep c5Db c5Tx =
        ({ c5Db with
             payments := [newPayment (syncUpsertParams c5Db c5Tx none) 1]
             nextPaymentId := 2 }, SyncOutcome.inserted) ∧
      triageCategory (syncStep c5Db c5Tx).1 (newPayment (syncUpsertParams c5Db c5Tx none) 1) =
        none := by
  refine ⟨by norm_num [c5Tx], ?_, ?_⟩
  · norm_num [syncStep, c5Tx, c5Db, getPaymentByKindAndID, computedUserId,
      upsertPayment, syncUpsertParams, txKindId, txRemoteAccount, List.find?, List.any]
  · norm_num [syncStep, c5Tx, c5Db, getPaymentByKindAndID, computedUserId,
      upsertPayment, syncUpsertParams, txKindId, txRemoteAccount, newPayment,
      triageCategory, List.find?, List.any]

/-- C5 (amended): the sync skips (and never persists) exactly the
transactions with amount ≤ 0, while the triage view drops every payment with
amount < 5; the two cuts are different, so a payment with 0 < amount < 5 is
persisted but kept out of the triage view. -/
theorem sync_skip_and_triage_thresholds (db : Db) (tx : FioTx) (p : Payment)
    (hskip : tx.amount ≤ 0) (hsmall : p.amount < 5) :
    syncStep db tx = (db, SyncOutcome.skipped) ∧ triageCategory db p = none := by
  constructor
  · unfold syncStep
    simp [hskip]
  · unfold triageCategory
    simp [hsmall]

/-- C5 amended-claim witness at an outgoing −100 transaction and a 3-Kč
payment. -/
theorem sync_skip_and_triage_thresholds_witness :
    (({ c5Tx with amount := -100 } : FioTx).amount ≤ 0 ∧
        ({ c4Payment with amount := 3 } : Payment).amount < 5) ∧
      syncStep c5Db { c5Tx with amount := -100 } = (c5Db, SyncOutcome.skipped) ∧
        triageCategory c5Db { c4Payment with amount := 3 } = none :=
  ⟨⟨by norm_num [c5Tx], by norm_num [c4Payment]⟩,
    sync_skip_and_triage_thresholds c5Db { c5Tx with amount := -100 }
      { c4Payment with amount := 3 } (by norm_num [c5Tx]) (by norm_num [c4Payment])⟩

/-- C6: when no fee for the (member, period) exists yet, the monthly job
creates exactly the fee with the member's effective amount, and the
debt-warning notification is triggered iff the balance recomputed on the
post-insertion state is strictly below −(2 × the fee amount used). -/
theorem debtWarning_iff_balance_below (db : Db) (period : Int) (row : FeeUserRow)
    (h : getFeeByUserAndPeriod db row.user.id period = none) :
    (monthlyFeeStep db period row).1 =
      createFee db
        { userId := row.user.id, levelId := row.user.levelId,
          periodStart := period, amount := feeAmountFor row } ∧
    ((monthlyFeeStep db period row).2 = true ↔
      getUserBalance (monthlyFeeStep db period row).1 row.user.id
        < -(2 * feeAmountFor row)) := by
  unfold monthlyFeeStep
  rw [h]
  simp

/-- C6 witness: member with monthly fee 600 and 700 of older debt; after the
fee posts the balance is −1300 and the theorem's iff applies. -/
theorem debtWarning_iff_balance_below_witness :
    getFeeByUserAndPeriod c6DbA c6Row.user.id 1 = none ∧
      ((monthlyFeeStep c6DbA 1 c6Row).1 =
        createFee c6DbA
          { userId := c6Row.user.id, levelId := c6Row.user.levelId,
            periodStart := 1, amount := feeAmountFor c6Row } ∧
      ((monthlyFeeStep c6DbA 1 c6Row).2 = true ↔
        getUserBalance (monthlyFeeStep c6DbA 1 c6Row).1 c6Row.user.id
          < -(2 * feeAmountFor c6Row))) :=
  ⟨by decide, debtWarning_iff_balance_below c6DbA 1 c6Row (by decide)⟩

/-- The spec's concrete instance: monthly fee 600, post-fee balance −1300 —
the warning fires (−1300 < −1200). -/
theorem debtWarning_fires_at_minus_1300 :
    getUserBalance (monthlyFeeStep c6DbA 1 c6Row).1 1 = -1300 ∧
      (monthlyFeeStep c6DbA 1 c6Row).2 = true := by
  have hnone : getFeeByUserAndPeriod c6DbA c6Row.user.id 1 = none := by decide
  constructor <;>
  · unfold monthlyFeeStep
    simp only [hnone]
    norm_num [createFee, getUserBalance, feeAmountFor, c6DbA, c6Row, c6User,
      List.filter]

/-- The spec's other instance: post-fee balance −1100 — no warning
(−1100 ≥ −1200). -/
theorem debtWarning_silent_at_minus_1100 :
    getUserBalance (monthlyFeeStep c6DbB 1 c6Row).1 1 = -1100 ∧
      (monthlyFeeStep c6DbB 1 c6Row).2 = false := by
  have hnone : getFeeByUserAndPeriod c6DbB c6Row.user.id 1 = none := by decide
  constructor <;>
  · unfold monthlyFeeStep
    simp only [hnone]
    norm_num [createFee, getUserBalance, feeAmountFor, c6DbB, c6DbA, c6Row, c6User,
      List.filter]

/-- C4: every undismissed, unlinked payment at or above the 5-Kč threshold is
classified by first match: empty identification → `emptyVs`; else a VS owned
by an existing project → excluded from the view; else no member with that VS →
`userNotFound`; else → `syncBug`; and membership in the rendered triage list
is exactly `triageCategory`. -/
theorem triage_classification (db : Db) (p : Payment)
    (hmem : p ∈ db.payments) (huser : p.userId = none) (hdis : p.dismissedAt = none)
    (hamt : 5 ≤ p.amount) :
    (p.identification = "" → triageCategory db p = some TriageCat.emptyVs) ∧
    (p.identification ≠ "" →
      (∃ r ∈ db.projectVs, r.vs = p.identification ∧
        ∃ proj ∈ db.projects, proj.id = r.projectId) →
      triageCategory db p = none) ∧
    (p.identification ≠ "" →
      ¬(∃ r ∈ db.projectVs, r.vs = p.identification ∧
        ∃ proj ∈ db.projects, proj.id = r.projectId) →
      (∀ u ∈ db.users, u.paymentsId ≠ some p.identification) →
      triageCategory db p = some TriageCat.userNotFound) ∧
    (p.identification ≠ "" →
      ¬(∃ r ∈ db.projectVs, r.vs = p.identification ∧
        ∃ proj ∈ db.projects, proj.id = r.projectId) →
      (∃ u ∈ db.users, u.paymentsId = some p.identification) →
      triageCategory db p = some TriageCat.syncBug) ∧
    (∀ c, (p, c) ∈ unmatchedTriageList db ↔ triageCategory db p = some c) := by
  have hnotlt : ¬(p.amount < 5) := not_lt.mpr hamt
  have hproj : (getProjectByPaymentsID db p.identification).isSome = true ↔
      ∃ r ∈ db.projectVs, r.vs = p.identification ∧
        ∃ proj ∈ db.projects, proj.id = r.projectId := by
    unfold getProjectByPaymentsID
    rw [← Option.ne_none_iff_isSome, ne_eq, List.findSome?_eq_none_iff]
    push_neg
    constructor
    · rintro ⟨r, hr, hne⟩
      by_cases hvs : (r.vs == p.identification) = true
      · rw [if_pos hvs] at hne
        rcases List.find?_isSome.mp (Option.ne_none_iff_isSome.mp hne) with
          ⟨proj, hmem2, hbeq⟩
        exact ⟨r, hr, eq_of_beq hvs, proj, hmem2, eq_of_beq hbeq⟩
      · rw [if_neg hvs] at hne
        exact absurd rfl hne
    · rintro ⟨r, hr, hvs, proj, hmem2, hpid⟩
      refine ⟨r, hr, ?_⟩
      rw [if_pos (by simp [hvs])]
      exact Option.ne_none_iff_isSome.mpr
        (List.find?_isSome.mpr ⟨proj, hmem2, by simp [hpid]⟩)
  have huserNone : getUserByPaymentsID db p.identification = none ↔
      ∀ u ∈ db.users, u.paymentsId ≠ some p.identification := by
    unfold getUserByPaymentsID
    rw [List.find?_eq_none]
    constructor
    · intro h u hu
      have := h u hu
      simpa using this
    · intro h u hu
      simpa using h u hu
  refine ⟨?_, ?_, ?_, ?_, ?_⟩
  · intro hident
    unfold triageCategory
    simp [hnotlt, hident]
  · intro hne hex
    unfold triageCategory
    simp only [if_neg hnotlt]
    rw [if_neg (by simp [beq_eq_false_iff_ne.2 hne]), if_pos (hproj.mpr hex)]
  · intro hne hnex hall
    unfold triageCategory
    simp only [if_neg hnotlt]
    rw [if_neg (by simp [beq_eq_false_iff_ne.2 hne])]
    rw [if_neg (by simpa using fun h => hnex (hproj.mp h))]
    rw [if_pos (by simp [Option.isNone_iff_eq_none, huserNone.mpr hall])]
  · intro hne hnex hex
    unfold triageCategory
    simp only [if_neg hnotlt]
    rw [if_neg (by simp [beq_eq_false_iff_ne.2 hne])]
    rw [if_neg (by simpa using fun h => hnex (hproj.mp h))]
    rcases hex with ⟨u, hu, hpay⟩
    rw [if_neg ?_]
    simp only [Option.isNone_iff_eq_none]
    intro hnone
    exact huserNone.mp hnone u hu hpay
  · intro c
    constructor
    · intro hc
      rcases List.mem_filterMap.mp hc with ⟨q, _, hfq⟩
      rcases Option.map_eq_some'.mp hfq with ⟨c', hc', hpair⟩
      injection hpair with h1 h2
      subst h1
      subst h2
      exact hc'
    · intro hc
      refine List.mem_filterMap.mpr ⟨p, ?_, ?_⟩
      · exact List.mem_filter.mpr ⟨hmem, by simp [huser, hdis]⟩
      · rw [hc]
        rfl

/-- C4 witness: the classification theorem applied to a concrete 250-Kč
payment with VS "9999" in a store holding member "77" and project VS "100". -/
theorem triage_classification_witness :
    (c4Payment ∈ c4Db.payments ∧ c4Payment.userId = none ∧
      c4Payment.dismissedAt = none ∧ (5 : ℚ) ≤ c4Payment.amount) ∧
    ((c4Payment.identification = "" →
        triageCategory c4Db c4Payment = some TriageCat.emptyVs) ∧
     (c4Payment.identification ≠ "" →
        (∃ r ∈ c4Db.projectVs, r.vs = c4Payment.identification ∧
          ∃ proj ∈ c4Db.projects, proj.id = r.projectId) →
        triageCategory c4Db c4Payment = none) ∧
     (c4Payment.identification ≠ "" →
        ¬(∃ r ∈ c4Db.projectVs, r.vs = c4Payment.identification ∧
          ∃ proj ∈ c4Db.projects, proj.id = r.projectId) →
        (∀ u ∈ c4Db.users, u.paymentsId ≠ some c4Payment.identification) →
        triageCategory c4Db c4Payment = some TriageCat.userNotFound) ∧
     (c4Payment.identification ≠ "" →
        ¬(∃ r ∈ c4Db.projectVs, r.vs = c4Payment.identification ∧
          ∃ proj ∈ c4Db.projects, proj.id = r.projectId) →
        (∃ u ∈ c4Db.users, u.paymentsId = some c4Payment.identification) →
        triageCategory c4Db c4Payment = some TriageCat.syncBug) ∧
     (∀ c, (c4Payment, c) ∈ unmatchedTriageList c4Db ↔
        triageCategory c4Db c4Payment = some c)) :=
  ⟨⟨by decide, by decide, by decide, by norm_num [c4Payment]⟩,
    triage_classification c4Db c4Payment (by decide) (by decide) (by decide)
      (by norm_num [c4Payment])⟩

/-- C7 counterexample: `c8Db` satisfies VS uniqueness (project 1 owns "100"),
yet creating a new project with initial VS "100" succeeds and leaves two
distinct projects holding "100" — project creation performs no cross-project
VS check (`project_vs` is only `UNIQUE(project_id, vs)`). -/
theorem createProject_breaks_vs_uniqueness :
    vsUniqueB c8Db = true ∧
      (adminCreateProject c8Db "Duplicate" "100" "").isSome = true ∧
      vsUniqueB ((adminCreateProject c8Db "Duplicate" "100" "").getD c8Db) = false :=
  ⟨by decide, by decide, by decide⟩

/-- `vsUniqueB` unfolded to its propositional meaning. -/
theorem vsUniqueB_iff (db : Db) :
    vsUniqueB db = true ↔
      ∀ r1 ∈ db.projectVs, ∀ r2 ∈ db.projectVs,
        r1.vs = r2.vs → r1.projectId = r2.projectId := by
  unfold vsUniqueB
  simp only [List.all_eq_true, Bool.or_eq_true, bne_iff_ne, beq_iff_eq]
  constructor
  · intro h r1 h1 r2 h2 hvs
    rcases h r1 h1 r2 h2 with hne | heq
    · exact absurd hvs hne
    · exact heq
  · intro h r1 h1 r2 h2
    by_cases hvs : r1.vs = r2.vs
    · exact Or.inr (h r1 h1 r2 h2 hvs)
    · exact Or.inl hvs

/-- Appending one `project_vs` row whose VS is new preserves cross-project VS
uniqueness. -/
theorem vsUniqueB_append_new (db : Db) (row : ProjectVs)
    (huniq : vsUniqueB db = true)
    (hnone : ∀ x ∈ db.projectVs, x.vs ≠ row.vs) :
    vsUniqueB { db with projectVs := db.projectVs ++ [row] } = true := by
  rw [vsUniqueB_iff]
  intro r1 h1 r2 h2 hvs12
  have h1' : r1 ∈ db.projectVs ++ [row] := h1
  have h2' : r2 ∈ db.projectVs ++ [row] := h2
  have hv := (vsUniqueB_iff db).mp huniq
  rcases List.mem_append.mp h1' with h1o | h1n
  · rcases List.mem_append.mp h2' with h2o | h2n
    · exact hv r1 h1o r2 h2o hvs12
    · have h2eq : r2 = row := by simpa using h2n
      subst h2eq
      exact absurd hvs12 (hnone r1 h1o)
  · have h1eq : r1 = row := by simpa using h1n
    rcases List.mem_append.mp h2' with h2o | h2n
    · exact absurd (by rw [← h1eq]; exact hvs12.symm) (hnone r2 h2o)
    · have h2eq : r2 = row := by simpa using h2n
      rw [h1eq, h2eq]

/-- C7 (amended): the add-VS endpoint rejects, with an explicit conflict and
no state change, a non-empty VS whose `project_vs` row belongs to a different
project, and the endpoint preserves cross-project VS uniqueness in every
outcome.  (Project creation with an initial VS does not preserve it — see the
counterexample.) -/
theorem addProjectVS_conflict_guard (db : Db) (pid : Int) (vs note : String)
    (huniq : vsUniqueB db = true) :
    (∀ r, vs ≠ "" → getProjectVSByVS db vs = some r → r.projectId ≠ pid →
      adminAddProjectVS db pid vs note = (db, AddVsOutcome.conflict)) ∧
    vsUniqueB (adminAddProjectVS db pid vs note).1 = true := by
  have attemptUniq : (∀ x ∈ db.projectVs, (x.vs == vs) = true → x.projectId = pid) →
      vsUniqueB (addVsAttempt db pid vs note).1 = true := by
    intro hpre
    unfold addVsAttempt
    cases hany : db.projectVs.any (fun x => x.projectId == pid && x.vs == vs) with
    | true =>
      have hfail : addProjectVS db pid vs (if note == "" then none else some note) = none := by
        unfold addProjectVS
        rw [if_pos hany]
      rw [hfail]
      exact huniq
    | false =>
      have hstep : addProjectVS db pid vs (if note == "" then none else some note) =
          some { db with projectVs := db.projectVs ++
            [{ projectId := pid, vs := vs,
               note := if note == "" then none else some note }] } := by
        unfold addProjectVS
        rw [if_neg (by simp [hany])]
      rw [hstep]
      have hnone : ∀ x ∈ db.projectVs, (x.vs == vs) = false := by
        intro x hx
        cases hxv : (x.vs == vs) with
        | false => rfl
        | true =>
          have hall : db.projectVs.any (fun y => y.projectId == pid && y.vs == vs) = true :=
            List.any_eq_true.mpr ⟨x, hx, by simp [hpre x hx hxv, hxv]⟩
          rw [hall] at hany
          exact absurd hany (by simp)
      show vsUniqueB { db with projectVs := db.projectVs ++
        [{ projectId := pid, vs := vs, note := (if note == "" then none else some note) }] } = true
      exact vsUniqueB_append_new db
        { projectId := pid, vs := vs, note := (if note == "" then none else some note) }
        huniq (fun x hx => ne_of_beq_false (hnone x hx))
  constructor
  · intro r hvs hr hne
    unfold adminAddProjectVS
    rw [if_neg (by simp [hvs]), hr]
    show (if (r.projectId != pid) = true then (db, AddVsOutcome.conflict)
      else addVsAttempt db pid vs note) = (db, AddVsOutcome.conflict)
    rw [if_pos (by simp [bne_iff_ne, hne])]
  · unfold adminAddProjectVS
    by_cases hvs : (vs == "") = true
    · rw [if_pos hvs]
      exact huniq
    · rw [if_neg hvs]
      cases hfind : getProjectVSByVS db vs with
      | some r =>
        have hfind' : db.projectVs.find? (fun x => x.vs == vs) = some r := hfind
        show vsUniqueB (if (r.projectId != pid) = true then (db, AddVsOutcome.conflict)
          else addVsAttempt db pid vs note).1 = true
        by_cases hpid : (r.projectId != pid) = true
        · rw [if_pos hpid]
          exact huniq
        · rw [if_neg hpid]
          have hrpid : r.projectId = pid := of_not_not (by simpa [bne_iff_ne] using hpid)
          refine attemptUniq (fun x hx hxv => ?_)
          have hrvs : (r.vs == vs) = true := by
            have hfs := List.find?_some hfind'
            simpa using hfs
          have hrmem : r ∈ db.projectVs := List.mem_of_find?_eq_some hfind'
          have := (vsUniqueB_iff db).mp huniq x hx r hrmem
            (by rw [eq_of_beq hxv, eq_of_beq hrvs])
          rw [this, hrpid]
      | none =>
        have hfind' : db.projectVs.find? (fun x => x.vs == vs) = none := hfind
        exact attemptUniq (fun x hx hxv =>
          absurd hxv (by simpa using List.find?_eq_none.mp hfind' x hx))

/-- C7 amended-claim witness: adding project 2's "200" to project 1 is
answered with a conflict and uniqueness is kept. -/
theorem addProjectVS_conflict_guard_witness :
    vsUniqueB c8Db = true ∧
      ((∀ r, "200" ≠ "" → getProjectVSByVS c8Db "200" = some r → r.projectId ≠ 1 →
        adminAddProjectVS c8Db 1 "200" "typo" = (c8Db, AddVsOutcome.conflict)) ∧
      vsUniqueB (adminAddProjectVS c8Db 1 "200" "typo").1 = true) :=
  ⟨by decide, addProjectVS_conflict_guard c8Db 1 "200" "typo" (by decide)⟩

/-! ### C9: monthly fee idempotence -/

/-- The two possible outcomes of one fee-job step on the store. -/
theorem monthlyFeeStep_fst (db : Db) (period : Int) (row : FeeUserRow) :
    (monthlyFeeStep db period row).1 = db ∨
    (monthlyFeeStep db period row).1 = createFee db
      { userId := row.user.id, levelId := row.user.levelId,
        periodStart := period, amount := feeAmountFor row } := by
  unfold monthlyFeeStep
  cases hf : getFeeByUserAndPeriod db row.user.id period with
  | some f =>
    cases hd : decide (0 < f.id) with
    | true => left; simp [hf, hd]
    | false => right; simp [hf, hd]
  | none => right; simp [hf]

/-- When no fee for the pair exists, the step posts exactly one new fee. -/
theorem monthlyFeeStep_creates (db : Db) (period : Int) (row : FeeUserRow)
    (hf : getFeeByUserAndPeriod db row.user.id period = none) :
    (monthlyFeeStep db period row).1 = createFee db
      { userId := row.user.id, levelId := row.user.levelId,
        periodStart := period, amount := feeAmountFor row } := by
  unfold monthlyFeeStep
  simp [hf]

/-- `CreateFee` keeps the fee store well-formed. -/
theorem feesWf_createFee (db : Db) (a : CreateFeeParams) (h : feesWf db = true) :
    feesWf (createFee db a) = true := by
  unfold feesWf at h
  unfold feesWf createFee
  simp only [List.all_append, List.all_cons, List.all_nil, Bool.and_eq_true,
    decide_eq_true_eq] at h ⊢
  exact ⟨by omega, h.2, by omega, trivial⟩

/-- One fee-job step keeps the fee store well-formed. -/
theorem feesWf_step (db : Db) (period : Int) (row : FeeUserRow)
    (h : feesWf db = true) : feesWf (monthlyFeeStep db period row).1 = true := by
  rcases monthlyFeeStep_fst db period row with hcase | hcase <;> rw [hcase]
  · exact h
  · exact feesWf_createFee db _ h

/-- One fee-job step never deletes a fee row. -/
theorem fees_mono_step (db : Db) (period : Int) (row : FeeUserRow) (f : Fee)
    (h : f ∈ db.fees) : f ∈ ((monthlyFeeStep db period row).1).fees := by
  rcases monthlyFeeStep_fst db period row with hcase | hcase <;> rw [hcase]
  · exact h
  · unfold createFee
    exact List.mem_append_left _ h

/-- After a step, the (member, period) pair has a fee row. -/
theorem fee_exists_after_step (db : Db) (period : Int) (row : FeeUserRow) :
    ∃ f ∈ ((monthlyFeeStep db period row).1).fees,
      f.userId = row.user.id ∧ f.periodStart = period := by
  cases hf : getFeeByUserAndPeriod db row.user.id period with
  | some g =>
    have hg : g ∈ db.fees := List.mem_of_find?_eq_some hf
    have hgp := List.find?_some hf
    simp only [Bool.and_eq_true, beq_iff_eq] at hgp
    exact ⟨g, fees_mono_step db period row g hg, hgp.1, hgp.2⟩
  | none =>
    rw [monthlyFeeStep_creates db period row hf]
    unfold createFee
    exact ⟨_, List.mem_append_right _ (List.mem_singleton.mpr rfl), rfl, rfl⟩

/-- When a fee for the pair already exists in a well-formed store, the step is
a no-op that sends no warning. -/
theorem monthlyFeeStep_noop (db : Db) (period : Int) (row : FeeUserRow)
    (hwf : feesWf db = true)
    (h : ∃ f ∈ db.fees, f.userId = row.user.id ∧ f.periodStart = period) :
    monthlyFeeStep db period row = (db, false) := by
  rcases h with ⟨f, hmem, hu, hp⟩
  have hsome : (getFeeByUserAndPeriod db row.user.id period).isSome := by
    exact List.find?_isSome.mpr ⟨f, hmem, by simp [hu, hp]⟩
  rcases Option.isSome_iff_exists.mp hsome with ⟨g, hg⟩
  have hgmem : g ∈ db.fees := List.mem_of_find?_eq_some hg
  have hgpos : 0 < g.id := by
    unfold feesWf at hwf
    simp only [Bool.and_eq_true, List.all_eq_true, decide_eq_true_eq] at hwf
    exact hwf.2 g hgmem
  unfold monthlyFeeStep
  simp [hg, hgpos]

/-- The whole run keeps the fee store well-formed. -/
theorem feesWf_run (period : Int) (rows : List FeeUserRow) :
    ∀ db : Db, feesWf db = true → feesWf (monthlyFeeRun db period rows) = true := by
  induction rows with
  | nil => intro db h; exact h
  | cons r rs ih => intro db h; exact ih _ (feesWf_step db period r h)

/-- The whole run never deletes a fee row. -/
theorem fees_mono_run (period : Int) (rows : List FeeUserRow) (f : Fee) :
    ∀ db : Db, f ∈ db.fees → f ∈ (monthlyFeeRun db period rows).fees := by
  induction rows with
  | nil => intro db h; exact h
  | cons r rs ih => intro db h; exact ih _ (fees_mono_step db period r f h)

/-- After a run, every processed member has a fee for the period. -/
theorem fee_exists_after_run (period : Int) (rows : List FeeUserRow) :
    ∀ db : Db, ∀ row ∈ rows, ∃ f ∈ (monthlyFeeRun db period rows).fees,
      f.userId = row.user.id ∧ f.periodStart = period := by
  induction rows with
  | nil => intro db row h; exact absurd h (List.not_mem_nil row)
  | cons r rs ih =>
    intro db row hrow
    rcases List.mem_cons.mp hrow with rfl | hrs
    · rcases fee_exists_after_step db period row with ⟨f, hf, hu, hp⟩
      exact ⟨f, fees_mono_run period rs f _ hf, hu, hp⟩
    · exact ih ((monthlyFeeStep db period r).1) row hrs

/-- A run over members that all already have their fee is a no-op. -/
theorem monthlyFeeRun_noop (db : Db) (period : Int) (hwf : feesWf db = true) :
    ∀ rows : List FeeUserRow,
      (∀ row ∈ rows, ∃ f ∈ db.fees, f.userId = row.user.id ∧ f.periodStart = period) →
      monthlyFeeRun db period rows = db := by
  intro rows
  induction rows with
  | nil => intro _; rfl
  | cons r rs ih =>
    intro h
    have hstep : monthlyFeeStep db period r = (db, false) :=
      monthlyFeeStep_noop db period r hwf (h r (List.mem_cons_self r rs))
    show monthlyFeeRun ((monthlyFeeStep db period r).1) period rs = db
    rw [hstep]
    exact ih (fun row hrow => h row (List.mem_cons_of_mem r hrow))

/-- `CreateFee` of a pair not yet present preserves "at most one fee per
(member, period)". -/
theorem atMostOneFee_createFee (db : Db) (a : CreateFeeParams) (h : atMostOneFee db)
    (hnew : ∀ f ∈ db.fees, ¬(f.userId = a.userId ∧ f.periodStart = a.periodStart)) :
    atMostOneFee (createFee db a) := by
  unfold atMostOneFee at h
  unfold atMostOneFee createFee
  rw [List.pairwise_append]
  refine ⟨h, List.pairwise_singleton _ _, ?_⟩
  intro x hx b hb
  rw [List.mem_singleton] at hb
  subst hb
  intro hcon
  exact hnew x hx ⟨hcon.1, hcon.2⟩

/-- One step preserves "at most one fee per (member, period)". -/
theorem atMostOneFee_step (db : Db) (period : Int) (row : FeeUserRow)
    (hwf : feesWf db = true) (h : atMostOneFee db) :
    atMostOneFee (monthlyFeeStep db period row).1 := by
  cases hf : getFeeByUserAndPeriod db row.user.id period with
  | some g =>
    have hgpos : 0 < g.id := by
      unfold feesWf at hwf
      simp only [Bool.and_eq_true, List.all_eq_true, decide_eq_true_eq] at hwf
      exact hwf.2 g (List.mem_of_find?_eq_some hf)
    have hnoop : (monthlyFeeStep db period row).1 = db := by
      unfold monthlyFeeStep
      simp [hf, hgpos]
    rw [hnoop]
    exact h
  | none =>
    rw [monthlyFeeStep_creates db period row hf]
    refine atMostOneFee_createFee db _ h (fun f hfmem => ?_)
    rintro ⟨hu, hp⟩
    exact absurd (by simp [hu, hp] :
        ((fun f => f.userId == row.user.id && f.periodStart == period) f) = true)
      (by simpa using List.find?_eq_none.mp hf f hfmem)

/-- The whole run preserves "at most one fee per (member, period)". -/
theorem atMostOneFee_run (period : Int) (rows : List FeeUserRow) :
    ∀ db : Db, feesWf db = true → atMostOneFee db →
      atMostOneFee (monthlyFeeRun db period rows) := by
  induction rows with
  | nil => intro db _ h; exact h
  | cons r rs ih =>
    intro db hwf h
    exact ih _ (feesWf_step db period r hwf) (atMostOneFee_step db period r hwf h)

/-- C9: for a well-formed fee store, re-running the monthly fee job for the
same period changes nothing (every member already holding a fee for the period
is skipped, no second fee is created), and a single run preserves the
at-most-one-fee-per-(member, period) invariant. -/
theorem monthlyFeeRun_idempotent (db : Db) (period : Int) (rows : List FeeUserRow)
    (hwf : feesWf db = true) :
    monthlyFeeRun (monthlyFeeRun db period rows) period rows =
      monthlyFeeRun db period rows ∧
    (atMostOneFee db → atMostOneFee (monthlyFeeRun db period rows)) := by
  constructor
  · exact monthlyFeeRun_noop _ period (feesWf_run period rows db hwf) rows
      (fee_exists_after_run period rows db)
  · exact atMostOneFee_run period rows db hwf

/-- C9 witness: running the job twice for period 1 over the single accepted
member of `c6DbA`. -/
theorem monthlyFeeRun_idempotent_witness :
    feesWf c6DbA = true ∧
      (monthlyFeeRun (monthlyFeeRun c6DbA 1 [c6Row]) 1 [c6Row] =
        monthlyFeeRun c6DbA 1 [c6Row] ∧
      (atMostOneFee c6DbA → atMostOneFee (monthlyFeeRun c6DbA 1 [c6Row]))) :=
  ⟨by decide, monthlyFeeRun_idempotent c6DbA 1 [c6Row] (by decide)⟩

/-! ### C2: sync idempotence -/

/-- `UpsertPayment` leaves the `users` table alone. -/
theorem upsertPayment_users (db : Db) (a : UpsertPaymentParams) :
    (upsertPayment db a).users = db.users := by
  unfold upsertPayment
  split <;> rfl

/-- A sync step leaves the `users` table alone. -/
theorem syncStep_users (db : Db) (tx : FioTx) : ((syncStep db tx).1).users = db.users := by
  unfold syncStep
  split
  · rfl
  · split
    · exact upsertPayment_users _ _
    · split
      · exact upsertPayment_users _ _
      · rfl

/-- The computed member id only depends on the `users` table. -/
theorem computedUserId_users_eq (d1 d2 : Db) (tx : FioTx) (h : d1.users = d2.users) :
    computedUserId d1 tx = computedUserId d2 tx := by
  unfold computedUserId getUserByPaymentsID
  rw [h]

/-- The sync's update condition is false exactly when the stored link already
agrees with the computed one. -/
theorem syncNeedsUpdate_false_iff (p : Payment) (c : Option Int) :
    syncNeedsUpdate p c = false ↔ (c = none ∨ p.userId = c) := by
  cases c with
  | none => simp [syncNeedsUpdate]
  | some uid => simp [syncNeedsUpdate, bne_eq_false_iff_eq]

/-- The upserted row's own key looks up to a row carrying the upserted member
link. -/
theorem getPaymentByKindAndID_upsert_self (db : Db) (a : UpsertPaymentParams) :
    ∃ q, getPaymentByKindAndID (upsertPayment db a) a.kind a.kindId = some q ∧
      q.userId = a.userId := by
  unfold upsertPayment
  cases hany : db.payments.any (fun q => q.kind == a.kind && q.kindId == a.kindId) with
  | false =>
    rw [if_neg (by simp [hany])]
    have hnone : db.payments.find? (fun q => q.kind == a.kind && q.kindId == a.kindId) = none := by
      rw [List.find?_eq_none]
      intro x hx hpred
      have hcontra : db.payments.any (fun q => q.kind == a.kind && q.kindId == a.kindId) = true :=
        List.any_eq_true.mpr ⟨x, hx, hpred⟩
      rw [hcontra] at hany
      exact absurd hany (by simp)
    refine ⟨newPayment a db.nextPaymentId, ?_, rfl⟩
    unfold getPaymentByKindAndID
    show (db.payments ++ [newPayment a db.nextPaymentId]).find?
      (fun p => p.kind == a.kind && p.kindId == a.kindId) = _
    rw [List.find?_append, hnone]
    simp [List.find?, newPayment]
  | true =>
    rw [if_pos rfl]
    obtain ⟨q0, hq0mem, hq0pred⟩ := List.any_eq_true.mp hany
    have hfind : (db.payments.find? (fun q => q.kind == a.kind && q.kindId == a.kindId)).isSome :=
      List.find?_isSome.mpr ⟨q0, hq0mem, hq0pred⟩
    obtain ⟨q1, hq1⟩ := Option.isSome_iff_exists.mp hfind
    refine ⟨applyUpsert q1 a, ?_, rfl⟩
    unfold getPaymentByKindAndID
    show (db.payments.map (fun q =>
        if q.kind == a.kind && q.kindId == a.kindId then applyUpsert q a else q)).find?
      (fun p => p.kind == a.kind && p.kindId == a.kindId) = _
    rw [find?_map_preserving _ _ _ (fun x => by
      cases hx : (x.kind == a.kind && x.kindId == a.kindId) <;> simp [hx, applyUpsert])]
    rw [hq1]
    have hq1pred : (q1.kind == a.kind && q1.kindId == a.kindId) = true := by
      have := List.find?_some hq1
      simpa using this
    simp only [Option.map_some']
    rw [if_pos hq1pred]

/-- Upserting one key leaves the lookup of any other key unchanged. -/
theorem getPaymentByKindAndID_upsert_ne (db : Db) (a : UpsertPaymentParams)
    (kind kindId : String) (hne : ¬(kind = a.kind ∧ kindId = a.kindId)) :
    getPaymentByKindAndID (upsertPayment db a) kind kindId =
      getPaymentByKindAndID db kind kindId := by
  unfold upsertPayment
  cases hany : db.payments.any (fun q => q.kind == a.kind && q.kindId == a.kindId) with
  | false =>
    rw [if_neg (by simp [hany])]
    unfold getPaymentByKindAndID
    show (db.payments ++ [newPayment a db.nextPaymentId]).find?
        (fun p => p.kind == kind && p.kindId == kindId) = _
    rw [List.find?_append]
    have hnew : ((newPayment a db.nextPaymentId).kind == kind &&
        (newPayment a db.nextPaymentId).kindId == kindId) = false := by
      unfold newPayment
      by_cases h1 : a.kind = kind
      · have h2 : a.kindId ≠ kindId := fun h => hne ⟨h1.symm, h.symm⟩
        simp [h2]
      · simp [h1]
    cases hfind : db.payments.find? (fun p => p.kind == kind && p.kindId == kindId) with
    | some q => rfl
    | none => simp [List.find?, hnew]
  | true =>
    rw [if_pos rfl]
    unfold getPaymentByKindAndID
    show (db.payments.map (fun q =>
        if q.kind == a.kind && q.kindId == a.kindId then applyUpsert q a else q)).find?
      (fun p => p.kind == kind && p.kindId == kindId) = _
    rw [find?_map_preserving _ _ _ (fun x => by
      cases hx : (x.kind == a.kind && x.kindId == a.kindId) <;> simp [hx, applyUpsert])]
    cases hfind : db.payments.find? (fun p => p.kind == kind && p.kindId == kindId) with
    | none => rfl
    | some q =>
      have hqpred : (q.kind == kind && q.kindId == kindId) = true := by
        have := List.find?_some hfind
        simpa using this
      simp only [Option.map_some']
      congr 1
      have hq : (q.kind == a.kind && q.kindId == a.kindId) = false := by
        simp only [Bool.and_eq_true, beq_iff_eq] at hqpred
        cases hka : (q.kind == a.kind) with
        | false => simp
        | true =>
          have : ¬(q.kindId = a.kindId) := fun h =>
            hne ⟨hqpred.1 ▸ eq_of_beq hka, hqpred.2 ▸ h⟩
          simp [this]
      simp [hq]

/-- A settled transaction's step is a state no-op. -/
theorem syncStep_noop (db : Db) (tx : FioTx) (h : syncSettled db tx) :
    (syncStep db tx).1 = db := by
  unfold syncStep
  by_cases hamt : tx.amount ≤ 0
  · rw [if_pos hamt]
  · rw [if_neg hamt]
    rcases h with h | ⟨p, hfind, hagree⟩
    · exact absurd h hamt
    · rw [hfind]
      show (if syncNeedsUpdate p (computedUserId db tx) then
          (upsertPayment db (syncUpsertParams db tx p.staffComment), SyncOutcome.updated)
        else (db, SyncOutcome.skipped)).1 = db
      rw [(syncNeedsUpdate_false_iff p (computedUserId db tx)).mpr hagree]
      rfl

/-- After its own step, a transaction is settled. -/
theorem syncStep_settles (db : Db) (tx : FioTx) : syncSettled ((syncStep db tx).1) tx := by
  by_cases hamt : tx.amount ≤ 0
  · exact Or.inl hamt
  · right
    have hcu : computedUserId ((syncStep db tx).1) tx = computedUserId db tx :=
      computedUserId_users_eq _ _ tx (syncStep_users db tx)
    rw [hcu]
    cases hfind : getPaymentByKindAndID db "fio" (txKindId tx) with
    | none =>
      have hstep : (syncStep db tx).1 = upsertPayment db (syncUpsertParams db tx none) := by
        unfold syncStep
        rw [if_neg hamt, hfind]
      rw [hstep]
      rcases getPaymentByKindAndID_upsert_self db (syncUpsertParams db tx none) with
        ⟨q, hq, hqu⟩
      exact ⟨q, hq, Or.inr hqu⟩
    | some existing =>
      cases hnu : syncNeedsUpdate existing (computedUserId db tx) with
      | true =>
        have hstep : (syncStep db tx).1 =
            upsertPayment db (syncUpsertParams db tx existing.staffComment) := by
          unfold syncStep
          rw [if_neg hamt, hfind]
          show (if syncNeedsUpdate existing (computedUserId db tx) then
              (upsertPayment db (syncUpsertParams db tx existing.staffComment),
                SyncOutcome.updated)
            else (db, SyncOutcome.skipped)).1 = _
          rw [hnu]
          rfl
        rw [hstep]
        rcases getPaymentByKindAndID_upsert_self db
          (syncUpsertParams db tx existing.staffComment) with ⟨q, hq, hqu⟩
        exact ⟨q, hq, Or.inr hqu⟩
      | false =>
        have hstep : (syncStep db tx).1 = db := by
          unfold syncStep
          rw [if_neg hamt, hfind]
          show (if syncNeedsUpdate existing (computedUserId db tx) then
              (upsertPayment db (syncUpsertParams db tx existing.staffComment),
                SyncOutcome.updated)
            else (db, SyncOutcome.skipped)).1 = _
          rw [hnu]
          rfl
        rw [hstep]
        exact ⟨existing, hfind, (syncNeedsUpdate_false_iff _ _).mp hnu⟩

/-- A step of a transaction with a different dedup key preserves settledness. -/
theorem syncStep_preserves_settled (db : Db) (tx tx' : FioTx) (h : syncSettled db tx)
    (hne : txKindId tx' ≠ txKindId tx) : syncSettled ((syncStep db tx').1) tx := by
  rcases h with h | ⟨p, hfind, hagree⟩
  · exact Or.inl h
  · right
    have hcu : computedUserId ((syncStep db tx').1) tx = computedUserId db tx :=
      computedUserId_users_eq _ _ tx (syncStep_users db tx')
    rw [hcu]
    refine ⟨p, ?_, hagree⟩
    by_cases hamt : tx'.amount ≤ 0
    · have hstep : (syncStep db tx').1 = db := by
        unfold syncStep
        rw [if_pos hamt]
      rw [hstep]
      exact hfind
    · cases hfind' : getPaymentByKindAndID db "fio" (txKindId tx') with
      | none =>
        have hstep : (syncStep db tx').1 = upsertPayment db (syncUpsertParams db tx' none) := by
          unfold syncStep
          rw [if_neg hamt, hfind']
        rw [hstep, getPaymentByKindAndID_upsert_ne db (syncUpsertParams db tx' none) "fio"
          (txKindId tx) (by rintro ⟨_, h2⟩; exact hne h2.symm)]
        exact hfind
      | some existing =>
        cases hnu : syncNeedsUpdate existing (computedUserId db tx') with
        | true =>
          have hstep : (syncStep db tx').1 =
              upsertPayment db (syncUpsertParams db tx' existing.staffComment) := by
            unfold syncStep
            rw [if_neg hamt, hfind']
            show (if syncNeedsUpdate existing (computedUserId db tx') then
                (upsertPayment db (syncUpsertParams db tx' existing.staffComment),
                  SyncOutcome.updated)
              else (db, SyncOutcome.skipped)).1 = _
            rw [hnu]
            rfl
          rw [hstep, getPaymentByKindAndID_upsert_ne db
            (syncUpsertParams db tx' existing.staffComment) "fio" (txKindId tx)
            (by rintro ⟨_, h2⟩; exact hne h2.symm)]
          exact hfind
        | false =>
          have hstep : (syncStep db tx').1 = db := by
            unfold syncStep
            rw [if_neg hamt, hfind']
            show (if syncNeedsUpdate existing (computedUserId db tx') then
                (upsertPayment db (syncUpsertParams db tx' existing.staffComment),
                  SyncOutcome.updated)
              else (db, SyncOutcome.skipped)).1 = _
            rw [hnu]
            rfl
          rw [hstep]
          exact hfind

/-- Settledness survives a run of transactions with other dedup keys. -/
theorem settled_through_run (txs : List FioTx) :
    ∀ db tx, syncSettled db tx → (∀ t' ∈ txs, txKindId t' ≠ txKindId tx) →
      syncSettled (syncRun db txs) tx := by
  induction txs with
  | nil => intro db tx h _; exact h
  | cons t ts ih =>
    intro db tx h hrule
    exact ih _ tx (syncStep_preserves_settled db tx t h (hrule t (List.mem_cons_self t ts)))
      (fun t' ht' => hrule t' (List.mem_cons_of_mem t ht'))

/-- After one run over a batch with pairwise-distinct dedup keys, every
transaction of the batch is settled. -/
theorem syncRun_settles (txs : List FioTx) :
    (txs.map txKindId).Nodup → ∀ db : Db, ∀ tx ∈ txs, syncSettled (syncRun db txs) tx := by
  induction txs with
  | nil => intro _ db tx h; exact absurd h (List.not_mem_nil tx)
  | cons t ts ih =>
    intro hnd db tx hmem
    rw [List.map_cons, List.nodup_cons] at hnd
    rcases List.mem_cons.mp hmem with rfl | hts
    · refine settled_through_run ts _ tx (syncStep_settles db tx) (fun t' ht' hkey => ?_)
      exact hnd.1 (List.mem_map.mpr ⟨t', ht', hkey⟩)
    · exact ih hnd.2 ((syncStep db t).1) tx hts

/-- A run over settled transactions changes nothing. -/
theorem syncRun_noop (txs : List FioTx) :
    ∀ db : Db, (∀ tx ∈ txs, syncSettled db tx) → syncRun db txs = db := by
  induction txs with
  | nil => intro db _; rfl
  | cons t ts ih =>
    intro db h
    show syncRun ((syncStep db t).1) ts = db
    rw [syncStep_noop db t (h t (List.mem_cons_self t ts))]
    exact ih db (fun tx hx => h tx (List.mem_cons_of_mem t hx))

/-- C2: over a batch whose (kind, kind_id) dedup keys are pairwise distinct,
running the sync twice yields exactly the state of running it once; moreover a
stored payment whose member link already agrees with the computed one is never
touched by its step, so manual edits on such rows survive re-runs. -/
theorem syncRun_idempotent (db : Db) (txs : List FioTx)
    (hnd : (txs.map txKindId).Nodup) :
    syncRun (syncRun db txs) txs = syncRun db txs ∧
    (∀ d : Db, ∀ tx : FioTx, ∀ p : Payment,
      getPaymentByKindAndID d "fio" (txKindId tx) = some p →
      (computedUserId d tx = none ∨ p.userId = computedUserId d tx) →
      (syncStep d tx).1 = d) := by
  constructor
  · exact syncRun_noop txs _ (syncRun_settles txs hnd db)
  · intro d tx p hfind hagree
    exact syncStep_noop d tx (Or.inr ⟨p, hfind, hagree⟩)

/-- C2 witness: a two-transaction batch with distinct FIO ids over a
single-member store. -/
theorem syncRun_idempotent_witness :
    ([c2TxA, c2TxB].map txKindId).Nodup ∧
      (syncRun (syncRun c2Db [c2TxA, c2TxB]) [c2TxA, c2TxB] =
        syncRun c2Db [c2TxA, c2TxB] ∧
      (∀ d : Db, ∀ tx : FioTx, ∀ p : Payment,
        getPaymentByKindAndID d "fio" (txKindId tx) = some p →
        (computedUserId d tx = none ∨ p.userId = computedUserId d tx) →
        (syncStep d tx).1 = d)) :=
  ⟨by decide, syncRun_idempotent c2Db [c2TxA, c2TxB] (by decide)⟩

/-! ### C3: identification/link lock-step -/

/-- C3 counterexample: `c3Db` satisfies the lock-step invariant; the manual
update assigning payment 1 to project 7 succeeds, but since project 7 has no
primary `payments_id`, the handler keeps the request's VS "999" — which is not
one of project 7's identifiers — so the invariant breaks. -/
theorem updatePayment_breaks_lockstep :
    paymentsLinkIdentOk c3Db = true ∧
      (adminUpdatePayment c3Db c3Req).isSome = true ∧
      paymentsLinkIdentOk ((adminUpdatePayment c3Db c3Req).getD c3Db) = false :=
  ⟨by decide, by decide, by decide⟩

/-- Every row after an upsert is an untouched old row or carries the upserted
link and identification. -/
theorem mem_upsertPayment (db : Db) (a : UpsertPaymentParams) :
    ∀ q ∈ (upsertPayment db a).payments, q ∈ db.payments ∨
      (q.userId = a.userId ∧ q.projectId = a.projectId ∧
        q.identification = a.identification) := by
  unfold upsertPayment
  cases hany : db.payments.any (fun q => q.kind == a.kind && q.kindId == a.kindId) with
  | true =>
    rw [if_pos rfl]
    intro q hq
    have hq' : q ∈ db.payments.map (fun q =>
        if q.kind == a.kind && q.kindId == a.kindId then applyUpsert q a else q) := hq
    rcases List.mem_map.mp hq' with ⟨q0, hq0, rfl⟩
    cases hpred : (q0.kind == a.kind && q0.kindId == a.kindId) with
    | true =>
      rw [if_pos rfl]
      exact Or.inr ⟨rfl, rfl, rfl⟩
    | false =>
      rw [if_neg (by simp [hpred])]
      exact Or.inl hq0
  | false =>
    rw [if_neg (by simp)]
    intro q hq
    have hq' : q ∈ db.payments ++ [newPayment a db.nextPaymentId] := hq
    rcases List.mem_append.mp hq' with h | h
    · exact Or.inl h
    · rw [List.mem_singleton] at h
      subst h
      exact Or.inr ⟨rfl, rfl, rfl⟩

/-- A member found by `payments_id` carries exactly that identifier. -/
theorem getUserByPaymentsID_paymentsId (db : Db) (vs : String) (u : User)
    (h : getUserByPaymentsID db vs = some u) : u.paymentsId = some vs := by
  have := List.find?_some h
  simpa using this

/-- When the sync computes a member id, it comes from a member whose
`payments_id` equals the transaction's VS. -/
theorem computedUserId_some (db : Db) (tx : FioTx) (uid : Int)
    (h : computedUserId db tx = some uid) :
    ∃ u, getUserByPaymentsID db tx.variableSymbol = some u ∧ u.id = uid ∧
      u.paymentsId = some tx.variableSymbol := by
  unfold computedUserId at h
  by_cases hvs : (tx.variableSymbol == "") = true
  · rw [if_pos hvs] at h
    exact absurd h (by simp)
  · rw [if_neg hvs] at h
    rcases Option.map_eq_some'.mp h with ⟨u, hu, hid⟩
    exact ⟨u, hu, hid, getUserByPaymentsID_paymentsId db _ u hu⟩

/-- C3 (amended): per mutation path, every row the operation writes carries
identification in lock-step with its link — member paths always write the
member's `payments_id` string; the project path of the manual update writes
the project's primary `payments_id` when set and otherwise the request's VS,
which need not be a project identifier. -/
theorem linkIdent_lockstep_per_path (db : Db) :
    (∀ tx : FioTx, ∀ q ∈ ((syncStep db tx).1).payments, q ∈ db.payments ∨
      (q.projectId = none ∧ q.identification = tx.variableSymbol ∧
        ∀ uid, q.userId = some uid →
          ∃ u, getUserByPaymentsID db tx.variableSymbol = some u ∧ u.id = uid ∧
            u.paymentsId = some tx.variableSymbol)) ∧
    (∀ paymentId userId : Int, ∀ staffComment : String, ∀ db' : Db,
      adminAssignPayment db paymentId userId staffComment = some db' →
      ∃ u, getUserByID db userId = some u ∧
        ∀ q ∈ db'.payments, q ∈ db.payments ∨
          (q.userId = some userId ∧ q.projectId = none ∧
            q.identification = u.paymentsId.getD "")) ∧
    (∀ req : UpdatePaymentRequest, ∀ db' : Db,
      req.assignType = "user" → adminUpdatePayment db req = some db' →
      ∃ uid u, req.userId = some uid ∧ getUserByID db uid = some u ∧
        ∀ q ∈ db'.payments, q ∈ db.payments ∨
          (q.userId = some uid ∧ q.projectId = none ∧
            q.identification = u.paymentsId.getD "")) ∧
    (∀ req : UpdatePaymentRequest, ∀ db' : Db,
      req.assignType = "project" → adminUpdatePayment db req = some db' →
      ∃ pid proj, req.projectId = some pid ∧ getProject db pid = some proj ∧
        ∀ q ∈ db'.payments, q ∈ db.payments ∨
          (q.userId = none ∧ q.projectId = some pid ∧
            q.identification = (match proj.paymentsId with
                                | some s => s
                                | none => req.vs))) := by
  refine ⟨?_, ?_, ?_, ?_⟩
  · intro tx q hq
    by_cases hamt : tx.amount ≤ 0
    · have hstep : (syncStep db tx).1 = db := by
        unfold syncStep
        rw [if_pos hamt]
      rw [hstep] at hq
      exact Or.inl hq
    · cases hfind : getPaymentByKindAndID db "fio" (txKindId tx) with
      | none =>
        have hstep : (syncStep db tx).1 = upsertPayment db (syncUpsertParams db tx none) := by
          unfold syncStep
          rw [if_neg hamt, hfind]
        rw [hstep] at hq
        rcases mem_upsertPayment db _ q hq with h | ⟨hu, hp, hi⟩
        · exact Or.inl h
        · refine Or.inr ⟨hp, hi, fun uid huid => computedUserId_some db tx uid ?_⟩
          have hcu : q.userId = computedUserId db tx := hu
          rw [← hcu]
          exact huid
      | some existing =>
        cases hnu : syncNeedsUpdate existing (computedUserId db tx) with
        | true =>
          have hstep : (syncStep db tx).1 =
              upsertPayment db (syncUpsertParams db tx existing.staffComment) := by
            unfold syncStep
            rw [if_neg hamt, hfind]
            show (if syncNeedsUpdate existing (computedUserId db tx) then
                (upsertPayment db (syncUpsertParams db tx existing.staffComment),
                  SyncOutcome.updated)
              else (db, SyncOutcome.skipped)).1 = _
            rw [hnu]
            rfl
          rw [hstep] at hq
          rcases mem_upsertPayment db _ q hq with h | ⟨hu, hp, hi⟩
          · exact Or.inl h
          · refine Or.inr ⟨hp, hi, fun uid huid => computedUserId_some db tx uid ?_⟩
            have hcu : q.userId = computedUserId db tx := hu
            rw [← hcu]
            exact huid
        | false =>
          have hstep : (syncStep db tx).1 = db := by
            unfold syncStep
            rw [if_neg hamt, hfind]
            show (if syncNeedsUpdate existing (computedUserId db tx) then
                (upsertPayment db (syncUpsertParams db tx existing.staffComment),
                  SyncOutcome.updated)
              else (db, SyncOutcome.skipped)).1 = _
            rw [hnu]
            rfl
          rw [hstep] at hq
          exact Or.inl hq
  · intro paymentId userId staffComment db' h
    unfold adminAssignPayment at h
    rcases Option.bind_eq_some.mp h with ⟨payment, hpay, h2⟩
    rcases Option.map_eq_some'.mp h2 with ⟨u, hu, hdb⟩
    refine ⟨u, hu, ?_⟩
    intro q hq
    rw [← hdb] at hq
    rcases mem_upsertPayment db _ q hq with hold | ⟨h1, h2', h3⟩
    · exact Or.inl hold
    · exact Or.inr ⟨h1, h2', h3⟩
  · intro req db' hat h
    unfold adminUpdatePayment at h
    rcases Option.bind_eq_some.mp h with ⟨payment, hpay, h2⟩
    rw [if_pos (by simp [hat])] at h2
    rcases Option.bind_eq_some.mp h2 with ⟨uid, huid, h3⟩
    rcases Option.map_eq_some'.mp h3 with ⟨tu, htu, hdb⟩
    refine ⟨uid, tu, huid, htu, ?_⟩
    intro q hq
    rw [← hdb] at hq
    rcases mem_upsertPayment db _ q hq with hold | ⟨h1, h2', h3'⟩
    · exact Or.inl hold
    · exact Or.inr ⟨h1, h2', h3'⟩
  · intro req db' hat h
    unfold adminUpdatePayment at h
    rcases Option.bind_eq_some.mp h with ⟨payment, hpay, h2⟩
    rw [if_neg (by simp [hat]), if_pos (by simp [hat])] at h2
    rcases Option.bind_eq_some.mp h2 with ⟨pid, hpid, h3⟩
    rcases Option.map_eq_some'.mp h3 with ⟨tp, htp, hdb⟩
    refine ⟨pid, tp, hpid, htp, ?_⟩
    intro q hq
    rw [← hdb] at hq
    rcases mem_upsertPayment db _ q hq with hold | ⟨h1, h2', h3'⟩
    · exact Or.inl hold
    · exact Or.inr ⟨h1, h2', h3'⟩

/-- C3 amended-claim witness: the manual-assign path applied to payment 1 and
member 2 of `c3WDb`. -/
theorem linkIdent_lockstep_per_path_witness :
    adminAssignPayment c3WDb 1 2 "fixed" =
        some ((adminAssignPayment c3WDb 1 2 "fixed").getD c3WDb) ∧
      (∃ u, getUserByID c3WDb 2 = some u ∧
        ∀ q ∈ ((adminAssignPayment c3WDb 1 2 "fixed").getD c3WDb).payments,
          q ∈ c3WDb.payments ∨
            (q.userId = some 2 ∧ q.projectId = none ∧
              q.identification = u.paymentsId.getD "")) :=
  ⟨by decide, (linkIdent_lockstep_per_path c3WDb).2.1 1 2 "fixed"
    ((adminAssignPayment c3WDb 1 2 "fixed").getD c3WDb) (by decide)⟩

end Base48
